import Mathlib

/-!
Verification of the nix-server-conf-manager update pipeline.

The repository contains two variants of the same single-run agent
(`src/main.go` and `src/unnamed/part_000`).  Both load a configuration,
validate that the configured path is a git repository, check the working
tree is clean, resolve the remote and local branch tips, compare them,
and on a difference force-sync the tree and trigger a NixOS rebuild,
reporting outcomes over a Discord webhook.  `part_000` additionally
persists the applied revision back to the configuration file.

The embedding models every external call (process invocation, stat,
hostname, webhook delivery) by its result, recorded in an `Env` record:
each call site of the Go code reads its own field, so distinct
invocations may yield distinct results.  Each variant's `main` is a pure
function from the loaded-configuration result and an `Env` to the trace
of observable events (log lines, notifier invocations, stage entries,
sync / rebuild / persist effects) and the process exit kind.
-/

/-- Result of `os.Stat` on the `.git` entry: the only field the code
inspects is `IsDir`. -/
structure FileInfo where
  isDir : Bool
deriving DecidableEq, Repr

/-- Configuration record, mirroring the Go `Config` struct field for
field (`repo_url`, `branch`, `repo_path`, `discord_webhook`,
`last_commit_hash`). -/
structure Config where
  repoURL : String
  branch : String
  repoPath : String
  discordWebhook : String
  lastCommitHash : String
deriving DecidableEq, Repr

/-- How the process ends: `fatal` models `log.Fatalf` (non-zero exit),
`normal` models returning from `main` (exit code zero). -/
inductive ExitKind where
  | normal : ExitKind
  | fatal (msg : String) : ExitKind
deriving DecidableEq, Repr

/-- Observable events of one run, in program order: local log lines,
notifier invocations (`sendDiscord` with its message), entry into each
pipeline stage, and the sync / rebuild / persist effects. -/
inductive Event where
  | logMsg (msg : String) : Event
  | notify (msg : String) : Event
  | checkClean : Event
  | resolveRemote : Event
  | resolveLocal : Event
  | sync : Event
  | rebuild : Event
  | persist (cfg : Config) : Event
deriving DecidableEq, Repr

/-- Results of all external calls a run can make.  Every call site of
the Go code has its own field, so two invocations of the same command
may return different results. -/
structure Env where
  /-- `os.Hostname()`. -/
  hostnameRes : Except String String
  /-- `os.Stat(path + "/.git")` inside `isGitRepo`. -/
  statGitDir : Except String FileInfo
  /-- stdout of `git status --porcelain` inside `isRepoClean`. -/
  statusRes : Except String String
  /-- stdout of `git ls-remote origin <branch>` (main.go `getRemoteHash`). -/
  lsRemoteRes : Except String String
  /-- `git fetch origin <branch>` inside part_000 `getRemoteHash`. -/
  fetchRemoteRes : Except String Unit
  /-- stdout of `git rev-parse origin/<branch>` (part_000 `getRemoteHash`). -/
  revParseOriginRes : Except String String
  /-- `git fetch origin <branch>` inside main.go `getLocalHash`. -/
  fetchLocalRes : Except String Unit
  /-- stdout of `git rev-parse <branch>` (main.go `getLocalHash`). -/
  revParseBranchRes : Except String String
  /-- stdout of `git rev-parse HEAD` (part_000 `getLocalHash`). -/
  revParseHeadRes : Except String String
  /-- `git fetch origin <branch>` inside `pullRepo`. -/
  pullFetchRes : Except String Unit
  /-- `git reset --hard origin/<branch>` inside `pullRepo`. -/
  resetRes : Except String Unit
  /-- `nixos-rebuild switch` inside `rebuildNixOS`. -/
  rebuildRes : Except String Unit
  /-- `os.Create("config.json")` inside part_000 `saveConfig`. -/
  createRes : Except String Unit
  /-- `encoder.Encode(cfg)` inside part_000 `saveConfig`. -/
  encodeRes : Except String Unit
  /-- `http.Post(webhookURL, ...)` inside `sendDiscord`. -/
  notifyRes : Except String Unit

instance {e a : Type} [DecidableEq e] [DecidableEq a] :
    DecidableEq (Except e a) := fun x y =>
  match x, y with
  | .ok u, .ok v =>
    if h : u = v then isTrue (by rw [h])
    else isFalse (by intro hc; cases hc; exact h rfl)
  | .error u, .error v =>
    if h : u = v then isTrue (by rw [h])
    else isFalse (by intro hc; cases hc; exact h rfl)
  | .ok _, .error _ => isFalse (by intro hc; cases hc)
  | .error _, .ok _ => isFalse (by intro hc; cases hc)

/-- Character-level model of Go `strings.TrimSpace`: drop whitespace
from both ends. -/
def goTrimSpace (s : String) : String :=
  String.mk (((s.data.dropWhile Char.isWhitespace).reverse.dropWhile
    Char.isWhitespace).reverse)

/-- Accumulator pass behind `goFields`: `cur` holds the current field in
reverse. -/
def goFieldsAux (cur : List Char) : List Char → List String
  | [] => if cur.isEmpty then [] else [String.mk cur.reverse]
  | c :: cs =>
    if c.isWhitespace then
      if cur.isEmpty then goFieldsAux [] cs
      else String.mk cur.reverse :: goFieldsAux [] cs
    else goFieldsAux (c :: cur) cs

/-- Model of Go `strings.Fields`: split around runs of whitespace,
returning only the non-empty fields. -/
def goFields (s : String) : List String := goFieldsAux [] s.data

/-- `isGitRepo` from both variants: `err == nil && info.IsDir()` on the
stat of `<path>/.git`. -/
def isGitRepo (stat : Except String FileInfo) : Bool :=
  match stat with
  | .ok info => info.isDir
  | .error _ => false

/-- `isRepoClean` from both variants: run `git status --porcelain` and
report whether the trimmed output is empty; a command failure is
surfaced as an error, not as "dirty". -/
def isRepoClean (env : Env) : Except String Bool :=
  match env.statusRes with
  | .error e => .error e
  | .ok out => .ok (goTrimSpace out == "")

/-- `pullRepo` from both variants: `git fetch origin <branch>` then
`git reset --hard origin/<branch>`; the first failing command aborts
with a `git command failed` message. -/
def pullRepo (env : Env) : Except String Unit :=
  match env.pullFetchRes with
  | .error e => .error ("git command failed: " ++ e)
  | .ok _ =>
    match env.resetRes with
    | .error e => .error ("git command failed: " ++ e)
    | .ok _ => .ok ()

/-- `rebuildNixOS` from both variants: run `nixos-rebuild switch` and
return its error, if any. -/
def rebuildNixOS (env : Env) : Except String Unit := env.rebuildRes

/-- Hostname actually used by the run: `os.Hostname()`, with the
fallback `unknown-host` on failure. -/
def hostnameOf (env : Env) : String :=
  match env.hostnameRes with
  | .ok h => h
  | .error _ => "unknown-host"

/-- Log events produced by the hostname lookup: one local log line when
`os.Hostname()` fails, nothing otherwise. -/
def hostLog (env : Env) : List Event :=
  match env.hostnameRes with
  | .ok _ => []
  | .error e => [Event.logMsg ("failed to get hostname: " ++ e)]

/-- `sendDiscord` from both variants: the notifier is invoked with the
message; a webhook delivery failure only produces a local log line and
is never propagated to the caller. -/
def sendDiscord (env : Env) (msg : String) : List Event :=
  Event.notify msg ::
    (match env.notifyRes with
     | .error e => [Event.logMsg ("failed to send Discord webhook: " ++ e)]
     | .ok _ => [])

namespace MainGo

/-- `getRemoteHash` from src/main.go: `git ls-remote origin <branch>`,
take the first whitespace-separated field of the output; an empty field
list is an error naming the branch. -/
def getRemoteHash (env : Env) (branch : String) : Except String String :=
  match env.lsRemoteRes with
  | .error e => .error ("failed to get remote hash: " ++ e)
  | .ok out =>
    match goFields out with
    | p :: _ => .ok p
    | [] => .error ("no hash found for branch " ++ branch)

/-- `getLocalHash` from src/main.go: `git fetch origin <branch>` then
`git rev-parse <branch>`, trimming stdout. -/
def getLocalHash (env : Env) (branch : String) : Except String String :=
  match env.fetchLocalRes with
  | .error e =>
    .error ("failed to fetch updates for branch " ++ branch ++ ": " ++ e)
  | .ok _ =>
    match env.revParseBranchRes with
    | .error e => .error ("failed to get local hash: " ++ e)
    | .ok out => .ok (goTrimSpace out)

/-- `main` from src/main.go as a trace function: given the result of
`loadConfig` and the environment, produce the event trace and the exit
kind. -/
def main (loadRes : Except String Config) (env : Env) :
    List Event × ExitKind :=
  match loadRes with
  | .error e => ([], .fatal ("Error loading config: " ++ e))
  | .ok cfg =>
    let hostname := hostnameOf env
    let ev0 := hostLog env
    if isGitRepo env.statGitDir then
      let ev1 := ev0 ++ [Event.checkClean]
      match isRepoClean env with
      | .error e =>
        (ev1 ++ sendDiscord env
          ("Failed to check Git status on `" ++ hostname ++ "`: " ++ e),
         .normal)
      | .ok isClean =>
        if isClean then
          let ev2 := ev1 ++ [Event.resolveRemote]
          match getRemoteHash env cfg.branch with
          | .error e =>
            (ev2 ++ sendDiscord env
              ("Failed to get remote hash on `" ++ hostname ++ "`: " ++ e),
             .normal)
          | .ok remoteHash =>
            let ev3 := ev2 ++ [Event.resolveLocal]
            match getLocalHash env cfg.branch with
            | .error e =>
              (ev3 ++ sendDiscord env
                ("Failed to get local hash on `" ++ hostname ++ "`: " ++ e),
               .normal)
            | .ok localHash =>
              let ev4 := ev3 ++
                [Event.logMsg ("Remote Hash: " ++ remoteHash),
                 Event.logMsg ("Local Hash: " ++ localHash)]
              if remoteHash == localHash then
                (ev4 ++ [Event.logMsg "No changes detected."], .normal)
              else
                let ev5 := ev4 ++
                  [Event.logMsg "Change detected! Pulling and rebuilding...",
                   Event.sync]
                match pullRepo env with
                | .error e =>
                  (ev5 ++ sendDiscord env
                    ("Failed to pull repo on `" ++ hostname ++ "`: " ++ e),
                   .normal)
                | .ok _ =>
                  let ev6 := ev5 ++ [Event.rebuild]
                  match rebuildNixOS env with
                  | .error e =>
                    (ev6 ++ sendDiscord env
                      ("NixOS rebuild failed on `" ++ hostname ++ "`: " ++ e),
                     .normal)
                  | .ok _ =>
                    (ev6 ++ [Event.logMsg "NixOS rebuild successful."] ++
                      sendDiscord env
                        ("NixOS rebuild successful on `" ++ hostname ++ "`."),
                     .normal)
        else
          (ev1 ++ sendDiscord env
            ("Repo at `" ++ cfg.repoPath ++ "` on `" ++ hostname ++
             "` has uncommitted changes. Skipping rebuild."),
           .normal)
    else
      (ev0 ++ sendDiscord env
        ("Repo path `" ++ cfg.repoPath ++ "` on `" ++ hostname ++
         "` is not a Git repo"),
       .fatal ("Not a Git repo: " ++ cfg.repoPath))

end MainGo

namespace Part000

/-- `getRemoteHash` from src/unnamed/part_000: `git fetch origin
<branch>` then `git rev-parse origin/<branch>`, trimming stdout; the
rev-parse error is returned unwrapped. -/
def getRemoteHash (env : Env) : Except String String :=
  match env.fetchRemoteRes with
  | .error e => .error ("git fetch failed: " ++ e)
  | .ok _ =>
    match env.revParseOriginRes with
    | .error e => .error e
    | .ok out => .ok (goTrimSpace out)

/-- `getLocalHash` from src/unnamed/part_000: `git rev-parse HEAD`,
trimming stdout; the error is returned unwrapped. -/
def getLocalHash (env : Env) : Except String String :=
  match env.revParseHeadRes with
  | .error e => .error e
  | .ok out => .ok (goTrimSpace out)

/-- `saveConfig` from src/unnamed/part_000: create `config.json` and
encode the configuration into it; the first failing step aborts with a
descriptive message. -/
def saveConfig (env : Env) : Except String Unit :=
  match env.createRes with
  | .error e => .error ("failed to create config.json: " ++ e)
  | .ok _ =>
    match env.encodeRes with
    | .error e => .error ("failed to encode config.json: " ++ e)
    | .ok _ => .ok ()

/-- `main` from src/unnamed/part_000 as a trace function: identical to
the main.go pipeline except for the revision-resolution strategy and
the persistence of the applied revision after a successful rebuild. -/
def main (loadRes : Except String Config) (env : Env) :
    List Event × ExitKind :=
  match loadRes with
  | .error e => ([], .fatal ("Error loading config: " ++ e))
  | .ok cfg =>
    let hostname := hostnameOf env
    let ev0 := hostLog env
    if isGitRepo env.statGitDir then
      let ev1 := ev0 ++ [Event.checkClean]
      match isRepoClean env with
      | .error e =>
        (ev1 ++ sendDiscord env
          ("Failed to check Git status on `" ++ hostname ++ "`: " ++ e),
         .normal)
      | .ok isClean =>
        if isClean then
          let ev2 := ev1 ++ [Event.resolveRemote]
          match getRemoteHash env with
          | .error e =>
            (ev2 ++ sendDiscord env
              ("Failed to get remote hash on `" ++ hostname ++ "`: " ++ e),
             .normal)
          | .ok remoteHash =>
            let ev3 := ev2 ++ [Event.resolveLocal]
            match getLocalHash env with
            | .error e =>
              (ev3 ++ sendDiscord env
                ("Failed to get local hash on `" ++ hostname ++ "`: " ++ e),
               .normal)
            | .ok localHash =>
              let ev4 := ev3 ++
                [Event.logMsg ("Remote Hash: " ++ remoteHash),
                 Event.logMsg ("Local Hash: " ++ localHash)]
              if remoteHash == localHash then
                (ev4 ++ [Event.logMsg "No changes detected."], .normal)
              else
                let ev5 := ev4 ++
                  [Event.logMsg "Change detected! Pulling and rebuilding...",
                   Event.sync]
                match pullRepo env with
                | .error e =>
                  (ev5 ++ sendDiscord env
                    ("Failed to pull repo on `" ++ hostname ++ "`: " ++ e),
                   .normal)
                | .ok _ =>
                  let ev6 := ev5 ++ [Event.rebuild]
                  match rebuildNixOS env with
                  | .error e =>
                    (ev6 ++ sendDiscord env
                      ("NixOS rebuild failed on `" ++ hostname ++ "`: " ++ e),
                     .normal)
                  | .ok _ =>
                    let cfg2 := { cfg with lastCommitHash := remoteHash }
                    let ev7 := ev6 ++ Event.persist cfg2 ::
                      (match saveConfig env with
                       | .error e =>
                         [Event.logMsg ("Failed to save config: " ++ e)]
                       | .ok _ => [])
                    (ev7 ++ [Event.logMsg "NixOS rebuild successful."] ++
                      sendDiscord env
                        ("NixOS rebuild successful on `" ++ hostname ++ "`."),
                     .normal)
        else
          (ev1 ++ sendDiscord env
            ("Repo at `" ++ cfg.repoPath ++ "` on `" ++ hostname ++
             "` has uncommitted changes. Skipping rebuild."),
           .normal)
    else
      (ev0 ++ sendDiscord env
        ("Repo path `" ++ cfg.repoPath ++ "` on `" ++ hostname ++
         "` is not a Git repo"),
       .fatal ("Not a Git repo: " ++ cfg.repoPath))

end Part000

/-- Messages of the notifier invocations of a trace, in order. -/
def notifyMsgs (evs : List Event) : List String :=
  evs.filterMap fun e =>
    match e with
    | .notify m => some m
    | _ => none

/-- Last-commit hashes of the configurations handed to the persistence
step, in order. -/
def persistedHashes (evs : List Event) : List String :=
  evs.filterMap fun e =>
    match e with
    | .persist c => some c.lastCommitHash
    | _ => none

/-- Recogniser for persistence events. -/
def isPersist : Event → Bool
  | .persist _ => true
  | _ => false

/-- Recogniser for the rebuild event. -/
def isRebuild : Event → Bool
  | .rebuild => true
  | _ => false

/-- Recogniser for local log events. -/
def isLogMsg : Event → Bool
  | .logMsg _ => true
  | _ => false

/-- Trace with the local log lines removed: the externally observable
effects of a run (notifier invocations, stage entries, sync, rebuild,
persist). -/
def nonLogEvents (evs : List Event) : List Event :=
  evs.filter fun e => !(isLogMsg e)

/-- Sample configuration used by the concrete witnesses below. -/
def cfg0 : Config :=
  { repoURL := "https://example.org/conf.git"
    branch := "main"
    repoPath := "/srv/conf"
    discordWebhook := "https://discord.example/hook"
    lastCommitHash := "aaa111" }

/-- Environment in which every external call succeeds and the remote
tip `bbb222` differs from the local tip `aaa111`. -/
def envHappy : Env :=
  { hostnameRes := .ok "host1"
    statGitDir := .ok ⟨true⟩
    statusRes := .ok "\n"
    lsRemoteRes := .ok "bbb222\trefs/heads/main\n"
    fetchRemoteRes := .ok ()
    revParseOriginRes := .ok "bbb222\n"
    fetchLocalRes := .ok ()
    revParseBranchRes := .ok "aaa111\n"
    revParseHeadRes := .ok "aaa111\n"
    pullFetchRes := .ok ()
    resetRes := .ok ()
    rebuildRes := .ok ()
    createRes := .ok ()
    encodeRes := .ok ()
    notifyRes := .ok () }

/-- Environment in which every external call succeeds and both tips
resolve to `aaa111`. -/
def envNoChange : Env :=
  { envHappy with
    lsRemoteRes := .ok "aaa111\trefs/heads/main\n"
    revParseOriginRes := .ok "aaa111\n" }

/-- C1: when the resolved remote tip equals the resolved local tip, the
run ends normally in the NoChange outcome: only the local
"No changes detected." log is produced, no notifier invocation occurs,
and the sync, rebuild and persistence steps are never invoked.  Proved
for both variants (src/unnamed/part_000 and src/main.go). -/
theorem noChange_quiet :
    (∀ (cfg : Config) (env : Env) (h : String),
      isGitRepo env.statGitDir = true →
      isRepoClean env = Except.ok true →
      Part000.getRemoteHash env = Except.ok h →
      Part000.getLocalHash env = Except.ok h →
      (Part000.main (Except.ok cfg) env).2 = ExitKind.normal ∧
      notifyMsgs (Part000.main (Except.ok cfg) env).1 = [] ∧
      Event.sync ∉ (Part000.main (Except.ok cfg) env).1 ∧
      Event.rebuild ∉ (Part000.main (Except.ok cfg) env).1 ∧
      persistedHashes (Part000.main (Except.ok cfg) env).1 = [] ∧
      Event.logMsg "No changes detected." ∈ (Part000.main (Except.ok cfg) env).1) ∧
    (∀ (cfg : Config) (env : Env) (h : String),
      isGitRepo env.statGitDir = true →
      isRepoClean env = Except.ok true →
      MainGo.getRemoteHash env cfg.branch = Except.ok h →
      MainGo.getLocalHash env cfg.branch = Except.ok h →
      (MainGo.main (Except.ok cfg) env).2 = ExitKind.normal ∧
      notifyMsgs (MainGo.main (Except.ok cfg) env).1 = [] ∧
      Event.sync ∉ (MainGo.main (Except.ok cfg) env).1 ∧
      Event.rebuild ∉ (MainGo.main (Except.ok cfg) env).1 ∧
      persistedHashes (MainGo.main (Except.ok cfg) env).1 = [] ∧
      Event.logMsg "No changes detected." ∈ (MainGo.main (Except.ok cfg) env).1) := by
  constructor
  · intro cfg env h hg hc hr hl
    cases hh : env.hostnameRes <;>
      simp [Part000.main, hostLog, hostnameOf, sendDiscord, notifyMsgs,
        persistedHashes, hg, hc, hr, hl, hh]
  · intro cfg env h hg hc hr hl
    cases hh : env.hostnameRes <;>
      simp [MainGo.main, hostLog, hostnameOf, sendDiscord, notifyMsgs,
        persistedHashes, hg, hc, hr, hl, hh]

/-- Witness for C1 at a concrete no-change environment. -/
theorem noChange_quiet_witness :
    (Part000.main (Except.ok cfg0) envNoChange).2 = ExitKind.normal ∧
    notifyMsgs (Part000.main (Except.ok cfg0) envNoChange).1 = [] ∧
    Event.sync ∉ (Part000.main (Except.ok cfg0) envNoChange).1 ∧
    Event.rebuild ∉ (Part000.main (Except.ok cfg0) envNoChange).1 ∧
    persistedHashes (Part000.main (Except.ok cfg0) envNoChange).1 = [] ∧
    Event.logMsg "No changes detected." ∈ (Part000.main (Except.ok cfg0) envNoChange).1 :=
  noChange_quiet.1 cfg0 envNoChange "aaa111" (by decide) (by decide)
    (by decide) (by decide)

/-- Environment identical to `envHappy` except that `git status
--porcelain` reports a modified file, so the tree is dirty. -/
def envDirty : Env := { envHappy with statusRes := .ok " M flake.nix\n" }

/-- Environment identical to `envHappy` except that the `.git` entry is
a regular file rather than a directory. -/
def envNotRepo : Env := { envHappy with statGitDir := .ok ⟨false⟩ }

/-- C3: when the cleanliness check succeeds and reports the tree dirty,
the sync and rebuild steps are never invoked and the notifier is called
exactly once, with the "has uncommitted changes. Skipping rebuild."
message.  Proved for both variants. -/
theorem dirty_tree_skips :
    (∀ (cfg : Config) (env : Env),
      isGitRepo env.statGitDir = true →
      isRepoClean env = Except.ok false →
      notifyMsgs (Part000.main (Except.ok cfg) env).1 =
        ["Repo at `" ++ cfg.repoPath ++ "` on `" ++ hostnameOf env ++
         "` has uncommitted changes. Skipping rebuild."] ∧
      Event.sync ∉ (Part000.main (Except.ok cfg) env).1 ∧
      Event.rebuild ∉ (Part000.main (Except.ok cfg) env).1 ∧
      persistedHashes (Part000.main (Except.ok cfg) env).1 = []) ∧
    (∀ (cfg : Config) (env : Env),
      isGitRepo env.statGitDir = true →
      isRepoClean env = Except.ok false →
      notifyMsgs (MainGo.main (Except.ok cfg) env).1 =
        ["Repo at `" ++ cfg.repoPath ++ "` on `" ++ hostnameOf env ++
         "` has uncommitted changes. Skipping rebuild."] ∧
      Event.sync ∉ (MainGo.main (Except.ok cfg) env).1 ∧
      Event.rebuild ∉ (MainGo.main (Except.ok cfg) env).1 ∧
      persistedHashes (MainGo.main (Except.ok cfg) env).1 = []) := by
  constructor
  · intro cfg env hg hc
    cases hh : env.hostnameRes <;> cases hn : env.notifyRes <;>
      simp [Part000.main, hostLog, hostnameOf, sendDiscord, notifyMsgs,
        persistedHashes, hg, hc, hh, hn]
  · intro cfg env hg hc
    cases hh : env.hostnameRes <;> cases hn : env.notifyRes <;>
      simp [MainGo.main, hostLog, hostnameOf, sendDiscord, notifyMsgs,
        persistedHashes, hg, hc, hh, hn]

/-- Witness for C3 at a concrete dirty-tree environment. -/
theorem dirty_tree_skips_witness :
    notifyMsgs (Part000.main (Except.ok cfg0) envDirty).1 =
      ["Repo at `" ++ cfg0.repoPath ++ "` on `" ++ hostnameOf envDirty ++
       "` has uncommitted changes. Skipping rebuild."] ∧
    Event.sync ∉ (Part000.main (Except.ok cfg0) envDirty).1 ∧
    Event.rebuild ∉ (Part000.main (Except.ok cfg0) envDirty).1 ∧
    persistedHashes (Part000.main (Except.ok cfg0) envDirty).1 = [] :=
  dirty_tree_skips.1 cfg0 envDirty (by decide) (by decide)

/-- C4: when the repository validator returns false, the notifier is
invoked exactly once with the "is not a Git repo" message and no
pipeline stage — cleanliness check, revision resolution, sync, rebuild
or persistence — is ever entered.  Proved for both variants. -/
theorem not_a_repo_notifies_once :
    (∀ (cfg : Config) (env : Env),
      isGitRepo env.statGitDir = false →
      notifyMsgs (Part000.main (Except.ok cfg) env).1 =
        ["Repo path `" ++ cfg.repoPath ++ "` on `" ++ hostnameOf env ++
         "` is not a Git repo"] ∧
      Event.checkClean ∉ (Part000.main (Except.ok cfg) env).1 ∧
      Event.resolveRemote ∉ (Part000.main (Except.ok cfg) env).1 ∧
      Event.resolveLocal ∉ (Part000.main (Except.ok cfg) env).1 ∧
      Event.sync ∉ (Part000.main (Except.ok cfg) env).1 ∧
      Event.rebuild ∉ (Part000.main (Except.ok cfg) env).1 ∧
      persistedHashes (Part000.main (Except.ok cfg) env).1 = []) ∧
    (∀ (cfg : Config) (env : Env),
      isGitRepo env.statGitDir = false →
      notifyMsgs (MainGo.main (Except.ok cfg) env).1 =
        ["Repo path `" ++ cfg.repoPath ++ "` on `" ++ hostnameOf env ++
         "` is not a Git repo"] ∧
      Event.checkClean ∉ (MainGo.main (Except.ok cfg) env).1 ∧
      Event.resolveRemote ∉ (MainGo.main (Except.ok cfg) env).1 ∧
      Event.resolveLocal ∉ (MainGo.main (Except.ok cfg) env).1 ∧
      Event.sync ∉ (MainGo.main (Except.ok cfg) env).1 ∧
      Event.rebuild ∉ (MainGo.main (Except.ok cfg) env).1 ∧
      persistedHashes (MainGo.main (Except.ok cfg) env).1 = []) := by
  constructor
  · intro cfg env hg
    cases hh : env.hostnameRes <;> cases hn : env.notifyRes <;>
      simp [Part000.main, hostLog, hostnameOf, sendDiscord, notifyMsgs,
        persistedHashes, hg, hh, hn]
  · intro cfg env hg
    cases hh : env.hostnameRes <;> cases hn : env.notifyRes <;>
      simp [MainGo.main, hostLog, hostnameOf, sendDiscord, notifyMsgs,
        persistedHashes, hg, hh, hn]

/-- Witness for C4 at a concrete non-repository environment. -/
theorem not_a_repo_notifies_once_witness :
    notifyMsgs (MainGo.main (Except.ok cfg0) envNotRepo).1 =
      ["Repo path `" ++ cfg0.repoPath ++ "` on `" ++ hostnameOf envNotRepo ++
       "` is not a Git repo"] ∧
    Event.checkClean ∉ (MainGo.main (Except.ok cfg0) envNotRepo).1 ∧
    Event.resolveRemote ∉ (MainGo.main (Except.ok cfg0) envNotRepo).1 ∧
    Event.resolveLocal ∉ (MainGo.main (Except.ok cfg0) envNotRepo).1 ∧
    Event.sync ∉ (MainGo.main (Except.ok cfg0) envNotRepo).1 ∧
    Event.rebuild ∉ (MainGo.main (Except.ok cfg0) envNotRepo).1 ∧
    persistedHashes (MainGo.main (Except.ok cfg0) envNotRepo).1 = [] :=
  not_a_repo_notifies_once.2 cfg0 envNotRepo (by decide)

/-- Environment identical to `envHappy` except that creating
`config.json` during persistence fails. -/
def envSaveFail : Env := { envHappy with createRes := .error "read-only fs" }

/-- C5: on a run of src/unnamed/part_000 where the remote tip differs
from the local tip and sync and rebuild succeed, the configuration
handed to the persistence step carries exactly the remote tip that was
resolved at comparison time, and no persistence event precedes the
rebuild event in the trace. -/
theorem persisted_revision_matches_remote :
    ∀ (cfg : Config) (env : Env) (r l : String),
      isGitRepo env.statGitDir = true →
      isRepoClean env = Except.ok true →
      Part000.getRemoteHash env = Except.ok r →
      Part000.getLocalHash env = Except.ok l →
      r ≠ l →
      pullRepo env = Except.ok () →
      rebuildNixOS env = Except.ok () →
      persistedHashes (Part000.main (Except.ok cfg) env).1 = [r] ∧
      Event.persist { cfg with lastCommitHash := r } ∈
        (Part000.main (Except.ok cfg) env).1 ∧
      ((Part000.main (Except.ok cfg) env).1.takeWhile
        fun e => !(isRebuild e)).filter isPersist = [] ∧
      Event.rebuild ∈ (Part000.main (Except.ok cfg) env).1 := by
  intro cfg env r l hg hc hr hl hne hp hb
  cases hh : env.hostnameRes <;> cases hn : env.notifyRes <;>
    cases hs : Part000.saveConfig env <;>
      simp [Part000.main, hostLog, hostnameOf, sendDiscord, notifyMsgs,
        persistedHashes, isRebuild, isPersist, hg, hc, hr, hl, hne, hp, hb,
        hh, hn, hs]

/-- Witness for C5 at a concrete changed-remote environment. -/
theorem persisted_revision_matches_remote_witness :
    persistedHashes (Part000.main (Except.ok cfg0) envHappy).1 = ["bbb222"] ∧
    Event.persist { cfg0 with lastCommitHash := "bbb222" } ∈
      (Part000.main (Except.ok cfg0) envHappy).1 ∧
    ((Part000.main (Except.ok cfg0) envHappy).1.takeWhile
      fun e => !(isRebuild e)).filter isPersist = [] ∧
    Event.rebuild ∈ (Part000.main (Except.ok cfg0) envHappy).1 :=
  persisted_revision_matches_remote cfg0 envHappy "bbb222" "aaa111"
    (by decide) (by decide) (by decide) (by decide) (by decide) (by decide)
    (by decide)

/-- C8: on a run of src/unnamed/part_000 where the rebuild succeeds but
persisting the configuration fails, the failure is only logged: the run
still exits normally, logs the rebuild success, and the success
notification is still the sole notifier invocation. -/
theorem persistence_failure_nonfatal :
    ∀ (cfg : Config) (env : Env) (r l msg : String),
      isGitRepo env.statGitDir = true →
      isRepoClean env = Except.ok true →
      Part000.getRemoteHash env = Except.ok r →
      Part000.getLocalHash env = Except.ok l →
      r ≠ l →
      pullRepo env = Except.ok () →
      rebuildNixOS env = Except.ok () →
      Part000.saveConfig env = Except.error msg →
      (Part000.main (Except.ok cfg) env).2 = ExitKind.normal ∧
      notifyMsgs (Part000.main (Except.ok cfg) env).1 =
        ["NixOS rebuild successful on `" ++ hostnameOf env ++ "`."] ∧
      Event.logMsg ("Failed to save config: " ++ msg) ∈
        (Part000.main (Except.ok cfg) env).1 ∧
      Event.logMsg "NixOS rebuild successful." ∈
        (Part000.main (Except.ok cfg) env).1 := by
  intro cfg env r l msg hg hc hr hl hne hp hb hs
  cases hh : env.hostnameRes <;> cases hn : env.notifyRes <;>
    simp [Part000.main, hostLog, hostnameOf, sendDiscord, notifyMsgs,
      hg, hc, hr, hl, hne, hp, hb, hh, hn, hs]

/-- Witness for C8 at a concrete failing-persistence environment. -/
theorem persistence_failure_nonfatal_witness :
    (Part000.main (Except.ok cfg0) envSaveFail).2 = ExitKind.normal ∧
    notifyMsgs (Part000.main (Except.ok cfg0) envSaveFail).1 =
      ["NixOS rebuild successful on `" ++ hostnameOf envSaveFail ++ "`."] ∧
    Event.logMsg ("Failed to save config: " ++
      "failed to create config.json: read-only fs") ∈
      (Part000.main (Except.ok cfg0) envSaveFail).1 ∧
    Event.logMsg "NixOS rebuild successful." ∈
      (Part000.main (Except.ok cfg0) envSaveFail).1 :=
  persistence_failure_nonfatal cfg0 envSaveFail "bbb222" "aaa111"
    "failed to create config.json: read-only fs" (by decide) (by decide)
    (by decide) (by decide) (by decide) (by decide) (by decide) (by decide)

/-- C10: the repository validator accepts exactly the environments in
which the stat of the `.git` entry succeeds and reports a directory; a
`.git` regular file (worktree or submodule checkout) is rejected, and
such a run is notified and terminated as "not a Git repo". -/
theorem validator_requires_git_directory :
    (∀ st : Except String FileInfo,
      isGitRepo st = true ↔ ∃ info, st = Except.ok info ∧ info.isDir = true) ∧
    (∀ (cfg : Config) (env : Env),
      env.statGitDir = Except.ok ⟨false⟩ →
      isGitRepo env.statGitDir = false ∧
      notifyMsgs (Part000.main (Except.ok cfg) env).1 =
        ["Repo path `" ++ cfg.repoPath ++ "` on `" ++ hostnameOf env ++
         "` is not a Git repo"] ∧
      (Part000.main (Except.ok cfg) env).2 =
        ExitKind.fatal ("Not a Git repo: " ++ cfg.repoPath)) := by
  constructor
  · intro st
    cases st with
    | ok info => cases info with | mk b => cases b <;> simp [isGitRepo]
    | error e => simp [isGitRepo]
  · intro cfg env hst
    have hg : isGitRepo env.statGitDir = false := by
      rw [hst]; simp [isGitRepo]
    refine ⟨hg, ?_, ?_⟩ <;>
      cases hh : env.hostnameRes <;> cases hn : env.notifyRes <;>
        simp [Part000.main, hostLog, hostnameOf, sendDiscord, notifyMsgs,
          hg, hh, hn]

/-- Witness for C10 at a concrete environment whose `.git` entry is a
regular file. -/
theorem validator_requires_git_directory_witness :
    isGitRepo envNotRepo.statGitDir = false ∧
    notifyMsgs (Part000.main (Except.ok cfg0) envNotRepo).1 =
      ["Repo path `" ++ cfg0.repoPath ++ "` on `" ++ hostnameOf envNotRepo ++
       "` is not a Git repo"] ∧
    (Part000.main (Except.ok cfg0) envNotRepo).2 =
      ExitKind.fatal ("Not a Git repo: " ++ cfg0.repoPath) :=
  validator_requires_git_directory.2 cfg0 envNotRepo (by decide)

/-- Counterexample to C7 as stated: a run whose configuration load
fails exits fatally (`log.Fatalf`) although the repository-location
validation did not fail — indeed it was never reached — and no
notification is sent on that path either. -/
theorem fatal_exit_claim_counterexample :
    (Part000.main (Except.error "open config.json: no such file") envHappy).2 ≠
      ExitKind.normal ∧
    isGitRepo envHappy.statGitDir = true ∧
    notifyMsgs
      (Part000.main (Except.error "open config.json: no such file") envHappy).1 =
      [] := by
  decide

/-- Amended C7: the process exits fatally only when the pre-pipeline
configuration load fails (no notification channel exists yet) or when
the repository-location validation fails (in which case a notification
is sent first); every other path ends the run with a normal exit.
Proved for both variants. -/
theorem fatal_exit_only_config_or_validator :
    (∀ (loadRes : Except String Config) (env : Env),
      (Part000.main loadRes env).2 = ExitKind.normal ∨
      (∃ e, loadRes = Except.error e) ∨
      (isGitRepo env.statGitDir = false ∧
        ∃ m, Event.notify m ∈ (Part000.main loadRes env).1)) ∧
    (∀ (loadRes : Except String Config) (env : Env),
      (MainGo.main loadRes env).2 = ExitKind.normal ∨
      (∃ e, loadRes = Except.error e) ∨
      (isGitRepo env.statGitDir = false ∧
        ∃ m, Event.notify m ∈ (MainGo.main loadRes env).1)) := by
  constructor
  · intro loadRes env
    cases loadRes with
    | error e => exact Or.inr (Or.inl ⟨e, rfl⟩)
    | ok cfg =>
      cases hg : isGitRepo env.statGitDir with
      | false =>
        refine Or.inr (Or.inr ⟨rfl, ?_⟩)
        refine ⟨"Repo path `" ++ cfg.repoPath ++ "` on `" ++ hostnameOf env ++
          "` is not a Git repo", ?_⟩
        simp [Part000.main, sendDiscord, hg]
      | true =>
        left
        cases hc : isRepoClean env with
        | error e => simp [Part000.main, hg, hc]
        | ok b =>
          cases b with
          | false => simp [Part000.main, hg, hc]
          | true =>
            cases hr : Part000.getRemoteHash env with
            | error e => simp [Part000.main, hg, hc, hr]
            | ok r =>
              cases hl : Part000.getLocalHash env with
              | error e => simp [Part000.main, hg, hc, hr, hl]
              | ok l =>
                by_cases hrl : r = l
                · simp [Part000.main, hg, hc, hr, hl, hrl]
                · cases hp : pullRepo env with
                  | error e => simp [Part000.main, hg, hc, hr, hl, hrl, hp]
                  | ok u =>
                    cases hb : rebuildNixOS env with
                    | error e =>
                      simp [Part000.main, hg, hc, hr, hl, hrl, hp, hb]
                    | ok u2 =>
                      cases hs : Part000.saveConfig env <;>
                        simp [Part000.main, hg, hc, hr, hl, hrl, hp, hb, hs]
  · intro loadRes env
    cases loadRes with
    | error e => exact Or.inr (Or.inl ⟨e, rfl⟩)
    | ok cfg =>
      cases hg : isGitRepo env.statGitDir with
      | false =>
        refine Or.inr (Or.inr ⟨rfl, ?_⟩)
        refine ⟨"Repo path `" ++ cfg.repoPath ++ "` on `" ++ hostnameOf env ++
          "` is not a Git repo", ?_⟩
        simp [MainGo.main, sendDiscord, hg]
      | true =>
        left
        cases hc : isRepoClean env with
        | error e => simp [MainGo.main, hg, hc]
        | ok b =>
          cases b with
          | false => simp [MainGo.main, hg, hc]
          | true =>
            cases hr : MainGo.getRemoteHash env cfg.branch with
            | error e => simp [MainGo.main, hg, hc, hr]
            | ok r =>
              cases hl : MainGo.getLocalHash env cfg.branch with
              | error e => simp [MainGo.main, hg, hc, hr, hl]
              | ok l =>
                by_cases hrl : r = l
                · simp [MainGo.main, hg, hc, hr, hl, hrl]
                · cases hp : pullRepo env with
                  | error e => simp [MainGo.main, hg, hc, hr, hl, hrl, hp]
                  | ok u =>
                    cases hb : rebuildNixOS env with
                    | error e =>
                      simp [MainGo.main, hg, hc, hr, hl, hrl, hp, hb]
                    | ok u2 =>
                      simp [MainGo.main, hg, hc, hr, hl, hrl, hp, hb]

/-- Pipeline stages at which a failure can be injected, in pipeline
order. -/
inductive Stage where
  | validator : Stage
  | cleanliness : Stage
  | remoteRes : Stage
  | localRes : Stage
  | syncStage : Stage
  | rebuildStage : Stage
deriving DecidableEq, Repr

/-- Notifier message produced when the given stage fails with cause
`e`; each message names its stage distinctly. -/
def stageMsg (st : Stage) (cfg : Config) (env : Env) (e : String) : String :=
  match st with
  | .validator =>
    "Repo path `" ++ cfg.repoPath ++ "` on `" ++ hostnameOf env ++
      "` is not a Git repo"
  | .cleanliness =>
    "Failed to check Git status on `" ++ hostnameOf env ++ "`: " ++ e
  | .remoteRes =>
    "Failed to get remote hash on `" ++ hostnameOf env ++ "`: " ++ e
  | .localRes =>
    "Failed to get local hash on `" ++ hostnameOf env ++ "`: " ++ e
  | .syncStage =>
    "Failed to pull repo on `" ++ hostnameOf env ++ "`: " ++ e
  | .rebuildStage =>
    "NixOS rebuild failed on `" ++ hostnameOf env ++ "`: " ++ e

/-- Stage-entry events of all pipeline stages strictly after the given
one. -/
def laterStages (st : Stage) : List Event :=
  match st with
  | .validator =>
    [Event.checkClean, Event.resolveRemote, Event.resolveLocal,
     Event.sync, Event.rebuild]
  | .cleanliness =>
    [Event.resolveRemote, Event.resolveLocal, Event.sync, Event.rebuild]
  | .remoteRes => [Event.resolveLocal, Event.sync, Event.rebuild]
  | .localRes => [Event.sync, Event.rebuild]
  | .syncStage => [Event.rebuild]
  | .rebuildStage => []

namespace Part000

/-- Hypothesis that the part_000 run reaches the given stage: every
earlier stage succeeds (with differing tips where the gate must open). -/
def reachesStage (st : Stage) (env : Env) : Prop :=
  match st with
  | .validator => True
  | .cleanliness => isGitRepo env.statGitDir = true
  | .remoteRes =>
    isGitRepo env.statGitDir = true ∧ isRepoClean env = Except.ok true
  | .localRes =>
    isGitRepo env.statGitDir = true ∧ isRepoClean env = Except.ok true ∧
      ∃ r, getRemoteHash env = Except.ok r
  | .syncStage =>
    isGitRepo env.statGitDir = true ∧ isRepoClean env = Except.ok true ∧
      ∃ r l, getRemoteHash env = Except.ok r ∧
        getLocalHash env = Except.ok l ∧ r ≠ l
  | .rebuildStage =>
    isGitRepo env.statGitDir = true ∧ isRepoClean env = Except.ok true ∧
      (∃ r l, getRemoteHash env = Except.ok r ∧
        getLocalHash env = Except.ok l ∧ r ≠ l) ∧
      pullRepo env = Except.ok ()

/-- Hypothesis that the given stage itself fails in the part_000 run,
with cause `e` (the validator carries no cause). -/
def stageFails (st : Stage) (env : Env) (e : String) : Prop :=
  match st with
  | .validator => isGitRepo env.statGitDir = false
  | .cleanliness => isRepoClean env = Except.error e
  | .remoteRes => getRemoteHash env = Except.error e
  | .localRes => getLocalHash env = Except.error e
  | .syncStage => pullRepo env = Except.error e
  | .rebuildStage => rebuildNixOS env = Except.error e

end Part000

namespace MainGo

/-- Hypothesis that the main.go run reaches the given stage: every
earlier stage succeeds (with differing tips where the gate must open). -/
def reachesStage (st : Stage) (env : Env) (branch : String) : Prop :=
  match st with
  | .validator => True
  | .cleanliness => isGitRepo env.statGitDir = true
  | .remoteRes =>
    isGitRepo env.statGitDir = true ∧ isRepoClean env = Except.ok true
  | .localRes =>
    isGitRepo env.statGitDir = true ∧ isRepoClean env = Except.ok true ∧
      ∃ r, getRemoteHash env branch = Except.ok r
  | .syncStage =>
    isGitRepo env.statGitDir = true ∧ isRepoClean env = Except.ok true ∧
      ∃ r l, getRemoteHash env branch = Except.ok r ∧
        getLocalHash env branch = Except.ok l ∧ r ≠ l
  | .rebuildStage =>
    isGitRepo env.statGitDir = true ∧ isRepoClean env = Except.ok true ∧
      (∃ r l, getRemoteHash env branch = Except.ok r ∧
        getLocalHash env branch = Except.ok l ∧ r ≠ l) ∧
      pullRepo env = Except.ok ()

/-- Hypothesis that the given stage itself fails in the main.go run,
with cause `e` (the validator carries no cause). -/
def stageFails (st : Stage) (env : Env) (branch : String) (e : String) :
    Prop :=
  match st with
  | .validator => isGitRepo env.statGitDir = false
  | .cleanliness => isRepoClean env = Except.error e
  | .remoteRes => getRemoteHash env branch = Except.error e
  | .localRes => getLocalHash env branch = Except.error e
  | .syncStage => pullRepo env = Except.error e
  | .rebuildStage => rebuildNixOS env = Except.error e

end MainGo

/-- C2: whichever pipeline stage fails, the run makes exactly one
notifier invocation, whose message is the distinct message of that
stage, and no later stage is ever entered (nor is anything persisted).
Proved for both variants. -/
theorem stage_failure_single_notification :
    (∀ (st : Stage) (cfg : Config) (env : Env) (e : String),
      Part000.reachesStage st env →
      Part000.stageFails st env e →
      notifyMsgs (Part000.main (Except.ok cfg) env).1 =
        [stageMsg st cfg env e] ∧
      (∀ ev ∈ laterStages st, ev ∉ (Part000.main (Except.ok cfg) env).1) ∧
      persistedHashes (Part000.main (Except.ok cfg) env).1 = []) ∧
    (∀ (st : Stage) (cfg : Config) (env : Env) (e : String),
      MainGo.reachesStage st env cfg.branch →
      MainGo.stageFails st env cfg.branch e →
      notifyMsgs (MainGo.main (Except.ok cfg) env).1 =
        [stageMsg st cfg env e] ∧
      (∀ ev ∈ laterStages st, ev ∉ (MainGo.main (Except.ok cfg) env).1) ∧
      persistedHashes (MainGo.main (Except.ok cfg) env).1 = []) := by
  constructor
  · intro st cfg env e hreach hfail
    cases st with
    | validator =>
      replace hfail : isGitRepo env.statGitDir = false := hfail
      cases hh : env.hostnameRes <;> cases hn : env.notifyRes <;>
        simp [Part000.main, hostLog, hostnameOf, sendDiscord, notifyMsgs,
          persistedHashes, stageMsg, laterStages, hfail, hh, hn]
    | cleanliness =>
      replace hreach : isGitRepo env.statGitDir = true := hreach
      replace hfail : isRepoClean env = Except.error e := hfail
      cases hh : env.hostnameRes <;> cases hn : env.notifyRes <;>
        simp [Part000.main, hostLog, hostnameOf, sendDiscord, notifyMsgs,
          persistedHashes, stageMsg, laterStages, hreach, hfail, hh, hn]
    | remoteRes =>
      obtain ⟨hg, hc⟩ := hreach
      replace hfail : Part000.getRemoteHash env = Except.error e := hfail
      cases hh : env.hostnameRes <;> cases hn : env.notifyRes <;>
        simp [Part000.main, hostLog, hostnameOf, sendDiscord, notifyMsgs,
          persistedHashes, stageMsg, laterStages, hg, hc, hfail, hh, hn]
    | localRes =>
      obtain ⟨hg, hc, r, hr⟩ := hreach
      replace hfail : Part000.getLocalHash env = Except.error e := hfail
      cases hh : env.hostnameRes <;> cases hn : env.notifyRes <;>
        simp [Part000.main, hostLog, hostnameOf, sendDiscord, notifyMsgs,
          persistedHashes, stageMsg, laterStages, hg, hc, hr, hfail, hh, hn]
    | syncStage =>
      obtain ⟨hg, hc, r, l, hr, hl, hne⟩ := hreach
      replace hfail : pullRepo env = Except.error e := hfail
      cases hh : env.hostnameRes <;> cases hn : env.notifyRes <;>
        simp [Part000.main, hostLog, hostnameOf, sendDiscord, notifyMsgs,
          persistedHashes, stageMsg, laterStages, hg, hc, hr, hl, hne,
          hfail, hh, hn]
    | rebuildStage =>
      obtain ⟨hg, hc, ⟨r, l, hr, hl, hne⟩, hp⟩ := hreach
      replace hfail : rebuildNixOS env = Except.error e := hfail
      cases hh : env.hostnameRes <;> cases hn : env.notifyRes <;>
        simp [Part000.main, hostLog, hostnameOf, sendDiscord, notifyMsgs,
          persistedHashes, stageMsg, laterStages, hg, hc, hr, hl, hne, hp,
          hfail, hh, hn]
  · intro st cfg env e hreach hfail
    cases st with
    | validator =>
      replace hfail : isGitRepo env.statGitDir = false := hfail
      cases hh : env.hostnameRes <;> cases hn : env.notifyRes <;>
        simp [MainGo.main, hostLog, hostnameOf, sendDiscord, notifyMsgs,
          persistedHashes, stageMsg, laterStages, hfail, hh, hn]
    | cleanliness =>
      replace hreach : isGitRepo env.statGitDir = true := hreach
      replace hfail : isRepoClean env = Except.error e := hfail
      cases hh : env.hostnameRes <;> cases hn : env.notifyRes <;>
        simp [MainGo.main, hostLog, hostnameOf, sendDiscord, notifyMsgs,
          persistedHashes, stageMsg, laterStages, hreach, hfail, hh, hn]
    | remoteRes =>
      obtain ⟨hg, hc⟩ := hreach
      replace hfail : MainGo.getRemoteHash env cfg.branch = Except.error e :=
        hfail
      cases hh : env.hostnameRes <;> cases hn : env.notifyRes <;>
        simp [MainGo.main, hostLog, hostnameOf, sendDiscord, notifyMsgs,
          persistedHashes, stageMsg, laterStages, hg, hc, hfail, hh, hn]
    | localRes =>
      obtain ⟨hg, hc, r, hr⟩ := hreach
      replace hfail : MainGo.getLocalHash env cfg.branch = Except.error e :=
        hfail
      cases hh : env.hostnameRes <;> cases hn : env.notifyRes <;>
        simp [MainGo.main, hostLog, hostnameOf, sendDiscord, notifyMsgs,
          persistedHashes, stageMsg, laterStages, hg, hc, hr, hfail, hh, hn]
    | syncStage =>
      obtain ⟨hg, hc, r, l, hr, hl, hne⟩ := hreach
      replace hfail : pullRepo env = Except.error e := hfail
      cases hh : env.hostnameRes <;> cases hn : env.notifyRes <;>
        simp [MainGo.main, hostLog, hostnameOf, sendDiscord, notifyMsgs,
          persistedHashes, stageMsg, laterStages, hg, hc, hr, hl, hne,
          hfail, hh, hn]
    | rebuildStage =>
      obtain ⟨hg, hc, ⟨r, l, hr, hl, hne⟩, hp⟩ := hreach
      replace hfail : rebuildNixOS env = Except.error e := hfail
      cases hh : env.hostnameRes <;> cases hn : env.notifyRes <;>
        simp [MainGo.main, hostLog, hostnameOf, sendDiscord, notifyMsgs,
          persistedHashes, stageMsg, laterStages, hg, hc, hr, hl, hne, hp,
          hfail, hh, hn]

/-- Environment identical to `envHappy` except that the hard reset
inside the sync step fails. -/
def envSyncFail : Env := { envHappy with resetRes := .error "network reset" }

/-- Witness for C2: a failure injected at the sync stage of the
part_000 pipeline. -/
theorem stage_failure_single_notification_witness :
    notifyMsgs (Part000.main (Except.ok cfg0) envSyncFail).1 =
      [stageMsg Stage.syncStage cfg0 envSyncFail
        "git command failed: network reset"] ∧
    (∀ ev ∈ laterStages Stage.syncStage,
      ev ∉ (Part000.main (Except.ok cfg0) envSyncFail).1) ∧
    persistedHashes (Part000.main (Except.ok cfg0) envSyncFail).1 = [] :=
  stage_failure_single_notification.1 Stage.syncStage cfg0 envSyncFail
    "git command failed: network reset"
    ⟨by decide, by decide, "bbb222", "aaa111", by decide, by decide,
      by decide⟩
    (show pullRepo envSyncFail =
      Except.error "git command failed: network reset" by decide)

/-- Changing only the webhook delivery result leaves the cleanliness
check unchanged. -/
theorem isRepoClean_set (env : Env) (r : Except String Unit) :
    isRepoClean { env with notifyRes := r } = isRepoClean env := rfl

/-- Changing only the webhook delivery result leaves the part_000
remote resolution unchanged. -/
theorem part000_getRemoteHash_set (env : Env) (r : Except String Unit) :
    Part000.getRemoteHash { env with notifyRes := r } =
      Part000.getRemoteHash env := rfl

/-- Changing only the webhook delivery result leaves the part_000 local
resolution unchanged. -/
theorem part000_getLocalHash_set (env : Env) (r : Except String Unit) :
    Part000.getLocalHash { env with notifyRes := r } =
      Part000.getLocalHash env := rfl

/-- Changing only the webhook delivery result leaves the main.go remote
resolution unchanged. -/
theorem maingo_getRemoteHash_set (env : Env) (r : Except String Unit)
    (branch : String) :
    MainGo.getRemoteHash { env with notifyRes := r } branch =
      MainGo.getRemoteHash env branch := rfl

/-- Changing only the webhook delivery result leaves the main.go local
resolution unchanged. -/
theorem maingo_getLocalHash_set (env : Env) (r : Except String Unit)
    (branch : String) :
    MainGo.getLocalHash { env with notifyRes := r } branch =
      MainGo.getLocalHash env branch := rfl

/-- Changing only the webhook delivery result leaves the sync step
unchanged. -/
theorem pullRepo_set (env : Env) (r : Except String Unit) :
    pullRepo { env with notifyRes := r } = pullRepo env := rfl

/-- Changing only the webhook delivery result leaves the rebuild step
unchanged. -/
theorem rebuildNixOS_set (env : Env) (r : Except String Unit) :
    rebuildNixOS { env with notifyRes := r } = rebuildNixOS env := rfl

/-- Changing only the webhook delivery result leaves the persistence
step unchanged. -/
theorem saveConfig_set (env : Env) (r : Except String Unit) :
    Part000.saveConfig { env with notifyRes := r } =
      Part000.saveConfig env := rfl


/-- Changing only the webhook delivery result leaves the effective
hostname unchanged. -/
theorem hostnameOf_set (env : Env) (r : Except String Unit) :
    hostnameOf { env with notifyRes := r } = hostnameOf env := rfl

/-- Changing only the webhook delivery result leaves the hostname log
events unchanged. -/
theorem hostLog_set (env : Env) (r : Except String Unit) :
    hostLog { env with notifyRes := r } = hostLog env := rfl

/-- Log-free projection distributes over trace concatenation. -/
theorem nonLogEvents_append (xs ys : List Event) :
    nonLogEvents (xs ++ ys) = nonLogEvents xs ++ nonLogEvents ys := by
  simp [nonLogEvents]

/-- Log-free projection of a cons keeps exactly the non-log head. -/
theorem nonLogEvents_cons (e : Event) (xs : List Event) :
    nonLogEvents (e :: xs) =
      if isLogMsg e then nonLogEvents xs else e :: nonLogEvents xs := by
  cases he : isLogMsg e <;> simp [nonLogEvents, he]

/-- Log-free projection of the empty trace. -/
theorem nonLogEvents_nil : nonLogEvents [] = [] := rfl

/-- Hostname-lookup events are all logs. -/
theorem nonLogEvents_hostLog (env : Env) :
    nonLogEvents (hostLog env) = [] := by
  cases h : env.hostnameRes <;> simp [hostLog, nonLogEvents, isLogMsg, h]

/-- Log-free projection of a notifier invocation is exactly the notify
event, whatever the delivery result. -/
theorem nonLogEvents_sendDiscord (env : Env) (m : String) :
    nonLogEvents (sendDiscord env m) = [Event.notify m] := by
  cases h : env.notifyRes <;> simp [sendDiscord, nonLogEvents, isLogMsg, h]

/-- C9: the run's terminal outcome does not depend on webhook delivery:
two runs identical except for the notification delivery result have the
same exit kind and the same log-free event trace (same notifier
messages, stage entries, sync, rebuild and persistence effects).
Proved for both variants. -/
theorem notification_failure_outcome_invariant :
    ∀ (loadRes : Except String Config) (env : Env)
      (r1 r2 : Except String Unit),
      ((Part000.main loadRes { env with notifyRes := r1 }).2 =
         (Part000.main loadRes { env with notifyRes := r2 }).2 ∧
       nonLogEvents (Part000.main loadRes { env with notifyRes := r1 }).1 =
         nonLogEvents (Part000.main loadRes { env with notifyRes := r2 }).1) ∧
      ((MainGo.main loadRes { env with notifyRes := r1 }).2 =
         (MainGo.main loadRes { env with notifyRes := r2 }).2 ∧
       nonLogEvents (MainGo.main loadRes { env with notifyRes := r1 }).1 =
         nonLogEvents (MainGo.main loadRes { env with notifyRes := r2 }).1) := by
  intro loadRes env r1 r2
  constructor
  · cases loadRes with
    | error e => simp [Part000.main, nonLogEvents]
    | ok cfg =>
      cases hg : isGitRepo env.statGitDir with
      | false =>
        simp [Part000.main, hostnameOf_set, hostLog_set, nonLogEvents_append,
          nonLogEvents_cons, nonLogEvents_nil, nonLogEvents_hostLog,
          nonLogEvents_sendDiscord, isLogMsg, hg]
      | true =>
        cases hc : isRepoClean env with
        | error e =>
          simp [Part000.main, isRepoClean_set, hostnameOf_set, hostLog_set,
            nonLogEvents_append, nonLogEvents_cons, nonLogEvents_nil,
            nonLogEvents_hostLog, nonLogEvents_sendDiscord, isLogMsg, hg, hc]
        | ok b =>
          cases b with
          | false =>
            simp [Part000.main, isRepoClean_set, hostnameOf_set, hostLog_set,
              nonLogEvents_append, nonLogEvents_cons, nonLogEvents_nil,
              nonLogEvents_hostLog, nonLogEvents_sendDiscord, isLogMsg,
              hg, hc]
          | true =>
            cases hr : Part000.getRemoteHash env with
            | error e =>
              simp [Part000.main, isRepoClean_set, part000_getRemoteHash_set,
                hostnameOf_set, hostLog_set, nonLogEvents_append,
                nonLogEvents_cons, nonLogEvents_nil, nonLogEvents_hostLog,
                nonLogEvents_sendDiscord, isLogMsg, hg, hc, hr]
            | ok r =>
              cases hl : Part000.getLocalHash env with
              | error e =>
                simp [Part000.main, isRepoClean_set,
                  part000_getRemoteHash_set, part000_getLocalHash_set,
                  hostnameOf_set, hostLog_set, nonLogEvents_append,
                  nonLogEvents_cons, nonLogEvents_nil, nonLogEvents_hostLog,
                  nonLogEvents_sendDiscord, isLogMsg, hg, hc, hr, hl]
              | ok l =>
                by_cases hrl : r = l
                · simp [Part000.main, isRepoClean_set,
                    part000_getRemoteHash_set, part000_getLocalHash_set,
                    hostnameOf_set, hostLog_set, nonLogEvents_append,
                    nonLogEvents_cons, nonLogEvents_nil, nonLogEvents_hostLog,
                    nonLogEvents_sendDiscord, isLogMsg, hg, hc, hr, hl, hrl]
                · cases hp : pullRepo env with
                  | error e =>
                    simp [Part000.main, isRepoClean_set,
                      part000_getRemoteHash_set, part000_getLocalHash_set,
                      pullRepo_set, hostnameOf_set, hostLog_set,
                      nonLogEvents_append, nonLogEvents_cons,
                      nonLogEvents_nil, nonLogEvents_hostLog,
                      nonLogEvents_sendDiscord, isLogMsg, hg, hc, hr, hl,
                      hrl, hp]
                  | ok u =>
                    cases hb : rebuildNixOS env with
                    | error e =>
                      simp [Part000.main, isRepoClean_set,
                        part000_getRemoteHash_set, part000_getLocalHash_set,
                        pullRepo_set, rebuildNixOS_set, hostnameOf_set,
                        hostLog_set, nonLogEvents_append, nonLogEvents_cons,
                        nonLogEvents_nil, nonLogEvents_hostLog,
                        nonLogEvents_sendDiscord, isLogMsg, hg, hc, hr, hl,
                        hrl, hp, hb]
                    | ok u2 =>
                      cases hs : Part000.saveConfig env <;>
                        simp [Part000.main, isRepoClean_set,
                          part000_getRemoteHash_set, part000_getLocalHash_set,
                          pullRepo_set, rebuildNixOS_set, saveConfig_set,
                          hostnameOf_set, hostLog_set, nonLogEvents_append,
                          nonLogEvents_cons, nonLogEvents_nil,
                          nonLogEvents_hostLog, nonLogEvents_sendDiscord,
                          isLogMsg, hg, hc, hr, hl, hrl, hp, hb, hs]
  · cases loadRes with
    | error e => simp [MainGo.main, nonLogEvents]
    | ok cfg =>
      cases hg : isGitRepo env.statGitDir with
      | false =>
        simp [MainGo.main, hostnameOf_set, hostLog_set, nonLogEvents_append,
          nonLogEvents_cons, nonLogEvents_nil, nonLogEvents_hostLog,
          nonLogEvents_sendDiscord, isLogMsg, hg]
      | true =>
        cases hc : isRepoClean env with
        | error e =>
          simp [MainGo.main, isRepoClean_set, hostnameOf_set, hostLog_set,
            nonLogEvents_append, nonLogEvents_cons, nonLogEvents_nil,
            nonLogEvents_hostLog, nonLogEvents_sendDiscord, isLogMsg, hg, hc]
        | ok b =>
          cases b with
          | false =>
            simp [MainGo.main, isRepoClean_set, hostnameOf_set, hostLog_set,
              nonLogEvents_append, nonLogEvents_cons, nonLogEvents_nil,
              nonLogEvents_hostLog, nonLogEvents_sendDiscord, isLogMsg,
              hg, hc]
          | true =>
            cases hr : MainGo.getRemoteHash env cfg.branch with
            | error e =>
              simp [MainGo.main, isRepoClean_set, maingo_getRemoteHash_set,
                hostnameOf_set, hostLog_set, nonLogEvents_append,
                nonLogEvents_cons, nonLogEvents_nil, nonLogEvents_hostLog,
                nonLogEvents_sendDiscord, isLogMsg, hg, hc, hr]
            | ok r =>
              cases hl : MainGo.getLocalHash env cfg.branch with
              | error e =>
                simp [MainGo.main, isRepoClean_set, maingo_getRemoteHash_set,
                  maingo_getLocalHash_set, hostnameOf_set, hostLog_set,
                  nonLogEvents_append, nonLogEvents_cons, nonLogEvents_nil,
                  nonLogEvents_hostLog, nonLogEvents_sendDiscord, isLogMsg,
                  hg, hc, hr, hl]
              | ok l =>
                by_cases hrl : r = l
                · simp [MainGo.main, isRepoClean_set,
                    maingo_getRemoteHash_set, maingo_getLocalHash_set,
                    hostnameOf_set, hostLog_set, nonLogEvents_append,
                    nonLogEvents_cons, nonLogEvents_nil, nonLogEvents_hostLog,
                    nonLogEvents_sendDiscord, isLogMsg, hg, hc, hr, hl, hrl]
                · cases hp : pullRepo env with
                  | error e =>
                    simp [MainGo.main, isRepoClean_set,
                      maingo_getRemoteHash_set, maingo_getLocalHash_set,
                      pullRepo_set, hostnameOf_set, hostLog_set,
                      nonLogEvents_append, nonLogEvents_cons,
                      nonLogEvents_nil, nonLogEvents_hostLog,
                      nonLogEvents_sendDiscord, isLogMsg, hg, hc, hr, hl,
                      hrl, hp]
                  | ok u =>
                    cases hb : rebuildNixOS env <;>
                      simp [MainGo.main, isRepoClean_set,
                        maingo_getRemoteHash_set, maingo_getLocalHash_set,
                        pullRepo_set, rebuildNixOS_set, hostnameOf_set,
                        hostLog_set, nonLogEvents_append, nonLogEvents_cons,
                        nonLogEvents_nil, nonLogEvents_hostLog,
                        nonLogEvents_sendDiscord, isLogMsg, hg, hc, hr, hl,
                        hrl, hp, hb]

/-- Abstract state of the tracked repository during one run: the true
remote tip of the branch, the commit the local branch ref points at,
and the commit HEAD resolves to. -/
structure RepoState where
  remoteTip : String
  localBranchTip : String
  headTip : String
deriving DecidableEq, Repr

/-- The environment reports the git state `s` consistently and the
remote does not change during the run: `ls-remote` lists the remote tip
first, both fetches succeed, and after a fetch `origin/<branch>`,
`<branch>` and `HEAD` resolve (modulo the trailing newline trimmed by
the code) to the remote tip, the local branch tip and the HEAD commit
respectively. -/
def ModelsGit (s : RepoState) (env : Env) : Prop :=
  (∃ out rest, env.lsRemoteRes = Except.ok out ∧
    goFields out = s.remoteTip :: rest) ∧
  env.fetchRemoteRes = Except.ok () ∧
  env.fetchLocalRes = Except.ok () ∧
  (∃ out, env.revParseOriginRes = Except.ok out ∧
    goTrimSpace out = s.remoteTip) ∧
  (∃ out, env.revParseBranchRes = Except.ok out ∧
    goTrimSpace out = s.localBranchTip) ∧
  (∃ out, env.revParseHeadRes = Except.ok out ∧
    goTrimSpace out = s.headTip)

/-- C6: over any repository state in which the tracked branch is
checked out (HEAD coincides with the local branch tip) and the remote
does not change during the run, the main.go resolution (`ls-remote`
against `rev-parse <branch>`) and the part_000 resolution (fetch then
`rev-parse origin/<branch>` against `rev-parse HEAD`) produce the same
pair of identifiers, hence the same change-gate decision. -/
theorem resolution_variants_agree :
    ∀ (s : RepoState) (branch : String) (envA envB : Env),
      ModelsGit s envA → ModelsGit s envB →
      s.headTip = s.localBranchTip →
      MainGo.getRemoteHash envA branch = Except.ok s.remoteTip ∧
      MainGo.getLocalHash envA branch = Except.ok s.localBranchTip ∧
      Part000.getRemoteHash envB = Except.ok s.remoteTip ∧
      Part000.getLocalHash envB = Except.ok s.headTip ∧
      (MainGo.getRemoteHash envA branch = MainGo.getLocalHash envA branch ↔
        Part000.getRemoteHash envB = Part000.getLocalHash envB) := by
  intro s branch envA envB hA hB hco
  obtain ⟨⟨outL, rest, hls, hfields⟩, hfrA, hflA, ⟨o1, ho1, ht1⟩,
    ⟨o2, ho2, ht2⟩, ⟨o3, ho3, ht3⟩⟩ := hA
  obtain ⟨hlsB, hfrB, hflB, ⟨p1, hp1, hq1⟩, ⟨p2, hp2, hq2⟩,
    ⟨p3, hp3, hq3⟩⟩ := hB
  have h1 : MainGo.getRemoteHash envA branch = Except.ok s.remoteTip := by
    simp [MainGo.getRemoteHash, hls, hfields]
  have h2 : MainGo.getLocalHash envA branch = Except.ok s.localBranchTip := by
    simp [MainGo.getLocalHash, hflA, ho2, ht2]
  have h3 : Part000.getRemoteHash envB = Except.ok s.remoteTip := by
    simp [Part000.getRemoteHash, hfrB, hp1, hq1]
  have h4 : Part000.getLocalHash envB = Except.ok s.headTip := by
    simp [Part000.getLocalHash, hp3, hq3]
  refine ⟨h1, h2, h3, h4, ?_⟩
  rw [h1, h2, h3, h4, hco]

/-- Witness for C6 at a concrete repository state with remote tip
`bbb222`, local branch tip `aaa111` and HEAD checked out on the
branch. -/
theorem resolution_variants_agree_witness :
    MainGo.getRemoteHash envHappy "main" = Except.ok "bbb222" ∧
    MainGo.getLocalHash envHappy "main" = Except.ok "aaa111" ∧
    Part000.getRemoteHash envHappy = Except.ok "bbb222" ∧
    Part000.getLocalHash envHappy = Except.ok "aaa111" ∧
    (MainGo.getRemoteHash envHappy "main" =
        MainGo.getLocalHash envHappy "main" ↔
      Part000.getRemoteHash envHappy = Part000.getLocalHash envHappy) :=
  resolution_variants_agree ⟨"bbb222", "aaa111", "aaa111"⟩ "main"
    envHappy envHappy
    ⟨⟨"bbb222\trefs/heads/main\n", ["refs/heads/main"], rfl, by decide⟩,
      rfl, rfl, ⟨"bbb222\n", rfl, by decide⟩, ⟨"aaa111\n", rfl, by decide⟩,
      ⟨"aaa111\n", rfl, by decide⟩⟩
    ⟨⟨"bbb222\trefs/heads/main\n", ["refs/heads/main"], rfl, by decide⟩,
      rfl, rfl, ⟨"bbb222\n", rfl, by decide⟩, ⟨"aaa111\n", rfl, by decide⟩,
      ⟨"aaa111\n", rfl, by decide⟩⟩
    rfl
